import Mathlib

/-!
Verification of the alchemical free-energy setup notebook
(`introduction_to_alchemistry/answers/alchemical_setup_solution.ipynb`).

The notebook is sequential glue code over the external BioSimSpace toolkit.
We embed:
* the Python dictionaries used for atom mappings, with Python's
  insertion-order / overwrite semantics, and the inversion comprehension
  `{v:k for k,v in mapping.items()}`;
* a molecule / merged-molecule model for the toolkit calls whose behaviour
  the specification describes (`BSS.Align.merge`,
  `BSS.IO.savePerturbableSystem`, `BSS.IO.readPerturbableSystem`,
  `BSS.FreeEnergy.Relative`) — these are modelled from the spec, since the
  toolkit's code is not part of this repository;
* the notebook's own cell sequence as a list of state transformers over an
  environment of top-level bindings, parameterised by a toolkit whose calls
  may fail, so that dataflow and error propagation can be proved.
-/

namespace AlchemSetup

/-! ### Python dictionaries (atom mappings) -/

/-- A Python dict from atom indices to atom indices, as its ordered list of
key/value items (Python dicts preserve insertion order). -/
abbrev PyDict := List (Nat × Nat)

/-- The keys of a dict, in item order (`mapping.keys()`). -/
def dictKeys (d : PyDict) : List Nat := d.map Prod.fst

/-- The values of a dict, in item order (`mapping.values()`). -/
def dictVals (d : PyDict) : List Nat := d.map Prod.snd

/-- Python assignment `d[k] = v`: overwrite in place if `k` is present
(keeping its position), otherwise append the new item. -/
def dictInsert (d : PyDict) (k v : Nat) : PyDict :=
  if k ∈ dictKeys d then d.map (fun p => if p.1 = k then (k, v) else p)
  else d ++ [(k, v)]

/-- The inversion comprehension `{v:k for k,v in d.items()}` from the
notebook: build a fresh dict, inserting `v ↦ k` for each item in order. -/
def dictInvert (d : PyDict) : PyDict :=
  d.foldl (fun acc p => dictInsert acc p.2 p.1) []

/-- Modelled from the spec: `BSS.Align.matchAtoms` is not part of this
repository; the spec describes its result as "a finite partial injective
correspondence between atom indices of two molecules (keys unique; each
value unique)". -/
def isAtomMapping (d : PyDict) : Prop :=
  (dictKeys d).Nodup ∧ (dictVals d).Nodup

instance (d : PyDict) : Decidable (isAtomMapping d) := by
  unfold isAtomMapping; infer_instance

/-! ### Molecules and merged (alchemical) molecules -/

/-- An atom; only the property relevant to the claims (its chemical
element) is modelled. -/
structure Atom where
  element : String
deriving DecidableEq

/-- A molecule: an ordered collection of atoms. -/
structure Molecule where
  atoms : List Atom
deriving DecidableEq

/-- One end-state property record of an atom of a merged molecule: either a
real atom of the corresponding input molecule, or a dummy placeholder for an
atom absent in that state. -/
inductive AtomState where
  | real (a : Atom) : AtomState
  | dummy : AtomState
deriving DecidableEq

/-- One atom of a merged (alchemical) molecule: its state-A and state-B
property records. -/
structure MergedAtom where
  stateA : AtomState
  stateB : AtomState
deriving DecidableEq

/-- Modelled from the spec: a valid atom mapping for merging, as the data
model describes it — a finite partial injective correspondence between atom
indices of the two molecules; for `BSS.Align.merge` (whose code is not part
of this repository) the mapping matches the whole of the smaller molecule,
so that only the larger molecule's extra atoms need dummy counterparts. -/
def validMapping (A B : Molecule) (m : PyDict) : Prop :=
  (dictKeys m).Nodup ∧ (dictVals m).Nodup ∧
    (∀ p ∈ m, p.1 < A.atoms.length ∧ p.2 < B.atoms.length) ∧
    m.length = min A.atoms.length B.atoms.length

instance (A B : Molecule) (m : PyDict) : Decidable (validMapping A B m) := by
  unfold validMapping; infer_instance

/-- Indices of atoms of the first molecule that the mapping does not match. -/
def unmappedA (A : Molecule) (m : PyDict) : List Nat :=
  (List.range A.atoms.length).filter (fun i => !(decide (i ∈ dictKeys m)))

/-- Indices of atoms of the second molecule that the mapping does not match. -/
def unmappedB (B : Molecule) (m : PyDict) : List Nat :=
  (List.range B.atoms.length).filter (fun j => !(decide (j ∈ dictVals m)))

/-- Modelled from the spec: `BSS.Align.merge` is not part of this
repository; the spec describes its result as a composite molecule holding,
per atom, the property sets for both end states, atoms absent in one state
being dummy placeholders. Matched pairs become real/real atoms, unmatched
atoms of either input keep their real record in their own state and a dummy
record in the other. -/
def merge (A B : Molecule) (m : PyDict) : List MergedAtom :=
  (m.filterMap fun p =>
    match A.atoms[p.1]?, B.atoms[p.2]? with
    | some a, some b => some ⟨.real a, .real b⟩
    | _, _ => none)
  ++ ((unmappedA A m).filterMap fun i =>
      (A.atoms[i]?).map fun a => ⟨.real a, .dummy⟩)
  ++ ((unmappedB B m).filterMap fun j =>
      (B.atoms[j]?).map fun b => ⟨.dummy, .real b⟩)

/-- The real atoms of the state-A end state of a merged molecule. -/
def stateAatoms (l : List MergedAtom) : List Atom :=
  l.filterMap fun x => match x.stateA with | .real a => some a | .dummy => none

/-- The real atoms of the state-B end state of a merged molecule. -/
def stateBatoms (l : List MergedAtom) : List Atom :=
  l.filterMap fun x => match x.stateB with | .real b => some b | .dummy => none

/-- Well-formedness of one merged atom: each end-state record is either a
real atom of the corresponding input molecule or a dummy placeholder, and
not both records are dummies. -/
def wfMergedAtom (A B : Molecule) (x : MergedAtom) : Prop :=
  ((∃ a, x.stateA = .real a ∧ a ∈ A.atoms) ∨ x.stateA = .dummy) ∧
    ((∃ b, x.stateB = .real b ∧ b ∈ B.atoms) ∨ x.stateB = .dummy) ∧
    ¬(x.stateA = .dummy ∧ x.stateB = .dummy)

/-- A perturbable (solvated) system: the merged molecule plus solvent. -/
structure PertSystem where
  pert : List MergedAtom
  solvent : List Atom
deriving DecidableEq

/-- Modelled from the spec: `BSS.IO.savePerturbableSystem` is not part of
this repository; it writes a topology/coordinate file pair per end state.
Each pair is modelled as the per-atom end-state records of the perturbable
molecule together with the solvent atoms (atom positions are not
modelled). -/
def savePerturbableSystem (s : PertSystem) :
    (List AtomState × List Atom) × (List AtomState × List Atom) :=
  ((s.pert.map MergedAtom.stateA, s.solvent),
   (s.pert.map MergedAtom.stateB, s.solvent))

/-- Modelled from the spec: `BSS.IO.readPerturbableSystem` is not part of
this repository; it reads the two end-state file pairs back and
reconstructs the perturbable system, failing if the files are
inconsistent. -/
def readPerturbableSystem (f0 f1 : List AtomState × List Atom) :
    Option PertSystem :=
  if f0.1.length = f1.1.length ∧ f0.2 = f1.2 then
    some ⟨List.zipWith MergedAtom.mk f0.1 f1.1, f0.2⟩
  else none

/-! ### The notebook workflow

The notebook is sequential glue code: each code cell assigns the results of
toolkit calls to top-level bindings. We embed it as a list of state
transformers over an environment of bindings, parameterised by a toolkit
whose calls return `Except`. Values are symbolic provenance terms recording
which call produced them and from which arguments, so that dataflow claims
(which protocol reaches which leg, which system a process is built from)
become decidable facts about the run. -/

/-- A symbolic value of a notebook binding: the toolkit call that produced
it, applied to the (symbolic) arguments it received. -/
inductive BVal where
  | unbound : BVal
  | readMolecule (path : String) (idx : Nat) : BVal
  | gaffMol (m : BVal) : BVal
  | gaff2Mol (m : BVal) : BVal
  | ff14SBMol (m : BVal) : BVal
  | mapping (a b : BVal) : BVal
  | invertMap (mp : BVal) : BVal
  | aligned (a b mp : BVal) : BVal
  | mergedMol (a b mp : BVal) : BVal
  | molSystem (m : BVal) : BVal
  | addMol (a b : BVal) : BVal
  | solvatedSys (mol : BVal) (workDir : Option String) (box : Nat) : BVal
  | protoFE (timestepFs : Option Nat) (runtimeNs : Nat) (numLam : Nat) : BVal
  | protoMin : BVal
  | protoEq : BVal
  | pertSystem (t0 c0 t1 c1 : String) : BVal
  | gromacsSys (sys proto : BVal) : BVal
  | viewOf (v : BVal) : BVal
  | relative (sys proto : BVal) (workDir : String) (engine : String) : BVal
deriving DecidableEq

/-- The notebook's top-level bindings, newest first. -/
abbrev Env := List (String × BVal)

/-- Assign a binding (Python assignment shadows the old value). -/
def envSet (env : Env) (x : String) (v : BVal) : Env := (x, v) :: env

/-- Look a binding up; unbound names yield `unbound`. -/
def envGet (env : Env) (x : String) : BVal :=
  match env.find? (fun p => p.1 == x) with
  | some p => p.2
  | none => .unbound

/-- The notebook's execution state: the bindings, every
`BSS.FreeEnergy.Relative` leg constructed so far (in order), every path
passed to the molecule loader `BSS.IO.readMolecules` (in order), and every
structure-file path passed to the `BSS.Notebook.View` viewer. -/
structure NBState where
  env : Env
  legs : List BVal
  molPaths : List String
  viewPaths : List String
deriving DecidableEq

/-- The state before any cell has run. -/
def initState : NBState := ⟨[], [], [], []⟩

/-- The external BioSimSpace calls the notebook delegates to, each of which
may fail with an error of type `ε`. The notebook installs no error
handling of its own. -/
structure Toolkit (ε : Type) where
  readMoleculesIdx : String → Nat → Except ε BVal
  viewFile : String → Except ε Unit
  viewSystem : BVal → Except ε Unit
  viewMapping : BVal → BVal → BVal → Except ε Unit
  gaff : BVal → Except ε BVal
  gaff2 : BVal → Except ε BVal
  ff14SB : BVal → Except ε BVal
  matchAtoms : BVal → BVal → Except ε BVal
  rmsdAlign : BVal → BVal → BVal → Except ε BVal
  mergeMols : BVal → BVal → BVal → Except ε BVal
  toSystem : BVal → Except ε BVal
  addMols : BVal → BVal → Except ε BVal
  tip3p : BVal → Option String → Nat → Except ε BVal
  protoFreeEnergy : Option Nat → Nat → Nat → Except ε BVal
  protoMinimisation : Except ε BVal
  protoEquilibration : Except ε BVal
  savePerturbable : String → BVal → Except ε Unit
  readPerturbable : String → String → String → String → Except ε BVal
  gromacsRun : BVal → BVal → Except ε BVal
  relative : BVal → BVal → String → String → Except ε BVal

/-- The notebook's code cells, in execution order, one state transformer
per cell. Each is a direct transcription of the cell's assignments and
calls. -/
def stepsOf {ε : Type} (tk : Toolkit ε) : List (NBState → Except ε NBState) :=
  [ -- ethane = BSS.IO.readMolecules("input/ethane.pdb")[0]
   -- methanol = BSS.IO.readMolecules("input/methanol.pdb")[0]
   fun st => do
    let eth ← tk.readMoleculesIdx "input/ethane.pdb" 0
    let met ← tk.readMoleculesIdx "input/methanol.pdb" 0
    pure ⟨envSet (envSet st.env "ethane" eth) "methanol" met, st.legs,
      st.molPaths ++ ["input/ethane.pdb", "input/methanol.pdb"], st.viewPaths⟩,
   -- BSS.Notebook.View("input/ethane.pdb").system()
   fun st => do
    let _ ← tk.viewFile "input/ethane.pdb"
    pure ⟨st.env, st.legs, st.molPaths, st.viewPaths ++ ["input/ethane.pdb"]⟩,
   -- BSS.Notebook.View("input/methanol.pdb").system()
   fun st => do
    let _ ← tk.viewFile "input/methanol.pdb"
    pure ⟨st.env, st.legs, st.molPaths, st.viewPaths ++ ["input/methanol.pdb"]⟩,
   -- ethane = BSS.Parameters.gaff(ethane).getMolecule()
   -- methanol = BSS.Parameters.gaff(methanol).getMolecule()
   fun st => do
    let eth ← tk.gaff (envGet st.env "ethane")
    let met ← tk.gaff (envGet st.env "methanol")
    pure ⟨envSet (envSet st.env "ethane" eth) "methanol" met, st.legs,
      st.molPaths, st.viewPaths⟩,
   -- mapping = BSS.Align.matchAtoms(ethane, methanol); print(mapping)
   fun st => do
    let mp ← tk.matchAtoms (envGet st.env "ethane") (envGet st.env "methanol")
    pure ⟨envSet st.env "mapping" mp, st.legs, st.molPaths, st.viewPaths⟩,
   -- BSS.Align.viewMapping(ethane, methanol, mapping)
   fun st => do
    let _ ← tk.viewMapping (envGet st.env "ethane") (envGet st.env "methanol")
      (envGet st.env "mapping")
    pure st,
   -- BSS.Align.viewMapping(methanol, ethane, {v:k for k,v in mapping.items()})
   fun st => do
    let _ ← tk.viewMapping (envGet st.env "methanol") (envGet st.env "ethane")
      (.invertMap (envGet st.env "mapping"))
    pure st,
   -- ethane = BSS.Align.rmsdAlign(ethane, methanol, mapping)
   fun st => do
    let eth ← tk.rmsdAlign (envGet st.env "ethane") (envGet st.env "methanol")
      (envGet st.env "mapping")
    pure ⟨envSet st.env "ethane" eth, st.legs, st.molPaths, st.viewPaths⟩,
   -- merged = BSS.Align.merge(ethane, methanol, mapping)
   fun st => do
    let mg ← tk.mergeMols (envGet st.env "ethane") (envGet st.env "methanol")
      (envGet st.env "mapping")
    pure ⟨envSet st.env "merged" mg, st.legs, st.molPaths, st.viewPaths⟩,
   -- solvated = BSS.Solvent.tip3p(molecule=merged, box=3*[40*angstrom])
   fun st => do
    let sv ← tk.tip3p (envGet st.env "merged") none 40
    pure ⟨envSet st.env "solvated" sv, st.legs, st.molPaths, st.viewPaths⟩,
   -- BSS.IO.savePerturbableSystem("pert", solvated)
   fun st => do
    let _ ← tk.savePerturbable "pert" (envGet st.env "solvated")
    pure st,
   -- solvated = BSS.IO.readPerturbableSystem("pert0.prm7", "pert0.rst7",
   --                                         "pert1.prm7", "pert1.rst7")
   fun st => do
    let sv ← tk.readPerturbable "pert0.prm7" "pert0.rst7" "pert1.prm7" "pert1.rst7"
    pure ⟨envSet st.env "solvated" sv, st.legs, st.molPaths, st.viewPaths⟩,
   -- protocol = BSS.Protocol.FreeEnergy(timestep=2fs, runtime=4ns, num_lam=9)
   fun st => do
    let pr ← tk.protoFreeEnergy (some 2) 4 9
    pure ⟨envSet st.env "protocol" pr, st.legs, st.molPaths, st.viewPaths⟩,
   -- fep_free = BSS.FreeEnergy.Relative(solvated, protocol,
   --              work_dir="ethane_methanol_somd/free")
   -- fep_vac  = BSS.FreeEnergy.Relative(merged.toSystem(), protocol,
   --              work_dir="ethane_methanol_somd/vacuum")
   fun st => do
    let free ← tk.relative (envGet st.env "solvated") (envGet st.env "protocol")
      "ethane_methanol_somd/free" "somd"
    let vsys ← tk.toSystem (envGet st.env "merged")
    let vac ← tk.relative vsys (envGet st.env "protocol")
      "ethane_methanol_somd/vacuum" "somd"
    pure ⟨envSet (envSet st.env "fep_free" free) "fep_vac" vac,
      st.legs ++ [free, vac], st.molPaths, st.viewPaths⟩,
   -- rotocol = BSS.Protocol.FreeEnergy(timestep=2fs, runtime=4ns, num_lam=12)
   fun st => do
    let pr ← tk.protoFreeEnergy (some 2) 4 12
    pure ⟨envSet st.env "rotocol" pr, st.legs, st.molPaths, st.viewPaths⟩,
   -- mapping = BSS.Align.matchAtoms(methanol, ethane)
   -- methanol = BSS.Align.rmsdAlign(methanol, ethane, mapping)
   -- merged_methanol = BSS.Align.merge(methanol, ethane, mapping)
   -- solvated_methanol = BSS.Solvent.tip3p(molecule=merged_methanol, box=...)
   -- fep_methanol_free = BSS.FreeEnergy.Relative(solvated_methanol, protocol,
   --                       work_dir="methanol_ethane")
   -- fep_methanol_vac = BSS.FreeEnergy.Relative(merged_methanol.toSystem(),
   --                       protocol, work_dir="methanol_ethane")
   fun st => do
    let mp ← tk.matchAtoms (envGet st.env "methanol") (envGet st.env "ethane")
    let env1 := envSet st.env "mapping" mp
    let met ← tk.rmsdAlign (envGet env1 "methanol") (envGet env1 "ethane")
      (envGet env1 "mapping")
    let env2 := envSet env1 "methanol" met
    let mm ← tk.mergeMols (envGet env2 "methanol") (envGet env2 "ethane")
      (envGet env2 "mapping")
    let env3 := envSet env2 "merged_methanol" mm
    let sm ← tk.tip3p (envGet env3 "merged_methanol") none 40
    let env4 := envSet env3 "solvated_methanol" sm
    let fmf ← tk.relative (envGet env4 "solvated_methanol") (envGet env4 "protocol")
      "methanol_ethane" "somd"
    let env5 := envSet env4 "fep_methanol_free" fmf
    let vsys ← tk.toSystem (envGet env5 "merged_methanol")
    let fmv ← tk.relative vsys (envGet env5 "protocol") "methanol_ethane" "somd"
    pure ⟨envSet env5 "fep_methanol_vac" fmv, st.legs ++ [fmf, fmv],
      st.molPaths, st.viewPaths⟩,
   -- fep_gromacs_free = BSS.FreeEnergy.Relative(solvated_methanol, protocol,
   --   work_dir="methanol_ethane_gromacs", engine="gromacs")
   fun st => do
    let fg ← tk.relative (envGet st.env "solvated_methanol")
      (envGet st.env "protocol") "methanol_ethane_gromacs" "gromacs"
    pure ⟨envSet st.env "fep_gromacs_free" fg, st.legs ++ [fg],
      st.molPaths, st.viewPaths⟩,
   -- lysozyme = BSS.IO.readMolecules("input/protein.pdb")[0]
   -- benzene = BSS.IO.readMolecules("input/benzene.mol2")[0]
   -- o_xylene = BSS.IO.readMolecules("input/o-xylene.mol2")[0]
   fun st => do
    let lys ← tk.readMoleculesIdx "input/protein.pdb" 0
    let ben ← tk.readMoleculesIdx "input/benzene.mol2" 0
    let oxy ← tk.readMoleculesIdx "input/o-xylene.mol2" 0
    pure ⟨envSet (envSet (envSet st.env "lysozyme" lys) "benzene" ben)
      "o_xylene" oxy, st.legs,
      st.molPaths ++ ["input/protein.pdb", "input/benzene.mol2",
        "input/o-xylene.mol2"], st.viewPaths⟩,
   -- molecules = lysozyme + benzene + o_xylene
   fun st => do
    let m1 ← tk.addMols (envGet st.env "lysozyme") (envGet st.env "benzene")
    let m2 ← tk.addMols m1 (envGet st.env "o_xylene")
    pure ⟨envSet st.env "molecules" m2, st.legs, st.molPaths, st.viewPaths⟩,
   -- view = BSS.Notebook.View(molecules); view.system()
   fun st => do
    let _ ← tk.viewSystem (envGet st.env "molecules")
    pure ⟨envSet st.env "view" (.viewOf (envGet st.env "molecules")), st.legs,
      st.molPaths, st.viewPaths⟩,
   -- lysozyme = BSS.Parameters.ff14SB(lysozyme).getMolecule()
   fun st => do
    let lys ← tk.ff14SB (envGet st.env "lysozyme")
    pure ⟨envSet st.env "lysozyme" lys, st.legs, st.molPaths, st.viewPaths⟩,
   -- benzene = BSS.Parameters.gaff2(benzene).getMolecule()
   -- o_xylene = BSS.Parameters.gaff2(o_xylene).getMolecule()
   fun st => do
    let ben ← tk.gaff2 (envGet st.env "benzene")
    let oxy ← tk.gaff2 (envGet st.env "o_xylene")
    pure ⟨envSet (envSet st.env "benzene" ben) "o_xylene" oxy, st.legs,
      st.molPaths, st.viewPaths⟩,
   -- mapping = BSS.Align.matchAtoms(o_xylene, benzene)
   fun st => do
    let mp ← tk.matchAtoms (envGet st.env "o_xylene") (envGet st.env "benzene")
    pure ⟨envSet st.env "mapping" mp, st.legs, st.molPaths, st.viewPaths⟩,
   -- o_xylene = BSS.Align.rmsdAlign(o_xylene, benzene, mapping)
   -- merged = BSS.Align.merge(o_xylene, benzene, mapping)
   fun st => do
    let oxy ← tk.rmsdAlign (envGet st.env "o_xylene") (envGet st.env "benzene")
      (envGet st.env "mapping")
    let env1 := envSet st.env "o_xylene" oxy
    let mg ← tk.mergeMols (envGet env1 "o_xylene") (envGet env1 "benzene")
      (envGet env1 "mapping")
    pure ⟨envSet env1 "merged" mg, st.legs, st.molPaths, st.viewPaths⟩,
   -- complx = merged + lysozyme
   fun st => do
    let cx ← tk.addMols (envGet st.env "merged") (envGet st.env "lysozyme")
    pure ⟨envSet st.env "complx" cx, st.legs, st.molPaths, st.viewPaths⟩,
   -- complex_sol = BSS.Solvent.tip3p(molecule=complx, box=3*[60*angstrom])
   -- merged_sol = BSS.Solvent.tip3p(molecule=merged, box=3*[60*angstrom])
   -- protocol = BSS.Protocol.FreeEnergy(runtime=4ns, num_lam=9)
   -- fep_bound = BSS.FreeEnergy.Relative(complex_sol, protocol,
   --               work_dir="o_xylene_benzene/bound")
   -- fep_free  = BSS.FreeEnergy.Relative(merged_sol, protocol,
   --               work_dir="o_xylene_benzene/free")
   fun st => do
    let cs ← tk.tip3p (envGet st.env "complx") none 60
    let env1 := envSet st.env "complex_sol" cs
    let ms ← tk.tip3p (envGet env1 "merged") none 60
    let env2 := envSet env1 "merged_sol" ms
    let pr ← tk.protoFreeEnergy none 4 9
    let env3 := envSet env2 "protocol" pr
    let fb ← tk.relative (envGet env3 "complex_sol") (envGet env3 "protocol")
      "o_xylene_benzene/bound" "somd"
    let env4 := envSet env3 "fep_bound" fb
    let ff ← tk.relative (envGet env4 "merged_sol") (envGet env4 "protocol")
      "o_xylene_benzene/free" "somd"
    pure ⟨envSet env4 "fep_free" ff, st.legs ++ [fb, ff], st.molPaths,
      st.viewPaths⟩,
   -- merged_sol = BSS.Solvent.tip3p(molecule=merged, work_dir="exercise_5",
   --                box=3*[30*angstrom])
   -- fep_free = BSS.FreeEnergy.Relative(merged_sol, protocol,
   --              work_dir="o_xylene_benzene/free")
   fun st => do
    let ms ← tk.tip3p (envGet st.env "merged") (some "exercise_5") 30
    let env1 := envSet st.env "merged_sol" ms
    let ff ← tk.relative (envGet env1 "merged_sol") (envGet env1 "protocol")
      "o_xylene_benzene/free" "somd"
    pure ⟨envSet env1 "fep_free" ff, st.legs ++ [ff], st.molPaths, st.viewPaths⟩,
   -- minimised = BSS.Process.Gromacs(solvated,
   --   BSS.Protocol.Minimisation()).start().getSystem(block=True)
   -- equilibrated = BSS.Process.Gromacs(minimised,
   --   BSS.Protocol.Equilibration()).start().getSystem(block=True)
   -- protocol = BSS.Protocol.FreeEnergy(runtime=4ns, num_lam=9)
   -- fep_bound = BSS.FreeEnergy.Relative(equilibrated, protocol,
   --               work_dir="exercise_5_3/bound")
   fun st => do
    let pmin ← tk.protoMinimisation
    let mind ← tk.gromacsRun (envGet st.env "solvated") pmin
    let env1 := envSet st.env "minimised" mind
    let peq ← tk.protoEquilibration
    let eqd ← tk.gromacsRun (envGet env1 "minimised") peq
    let env2 := envSet env1 "equilibrated" eqd
    let pr ← tk.protoFreeEnergy none 4 9
    let env3 := envSet env2 "protocol" pr
    let fb ← tk.relative (envGet env3 "equilibrated") (envGet env3 "protocol")
      "exercise_5_3/bound" "somd"
    pure ⟨envSet env3 "fep_bound" fb, st.legs ++ [fb], st.molPaths,
      st.viewPaths⟩]

/-- Run a list of cell steps in order, stopping at the first error, which
is returned unchanged (the notebook installs no error handling). -/
def runSteps {ε : Type} (steps : List (NBState → Except ε NBState))
    (s : NBState) : Except ε NBState :=
  match steps with
  | [] => .ok s
  | f :: rest =>
    match f s with
    | .ok s' => runSteps rest s'
    | .error e => .error e

/-- Execute the whole notebook against a toolkit. -/
def notebook {ε : Type} (tk : Toolkit ε) : Except ε NBState :=
  runSteps (stepsOf tk) initState

/-- The toolkit in which every call succeeds and returns the symbolic
record of the call, so a run computes exact dataflow. -/
def pureTk : Toolkit Empty where
  readMoleculesIdx p i := .ok (.readMolecule p i)
  viewFile _ := .ok ()
  viewSystem _ := .ok ()
  viewMapping _ _ _ := .ok ()
  gaff m := .ok (.gaffMol m)
  gaff2 m := .ok (.gaff2Mol m)
  ff14SB m := .ok (.ff14SBMol m)
  matchAtoms a b := .ok (.mapping a b)
  rmsdAlign a b mp := .ok (.aligned a b mp)
  mergeMols a b mp := .ok (.mergedMol a b mp)
  toSystem m := .ok (.molSystem m)
  addMols a b := .ok (.addMol a b)
  tip3p m wd box := .ok (.solvatedSys m wd box)
  protoFreeEnergy ts rt n := .ok (.protoFE ts rt n)
  protoMinimisation := .ok .protoMin
  protoEquilibration := .ok .protoEq
  savePerturbable _ _ := .ok ()
  readPerturbable a b c d := .ok (.pertSystem a b c d)
  gromacsRun s p := .ok (.gromacsSys s p)
  relative s p wd eng := .ok (.relative s p wd eng)

/-- Like `pureTk` but the molecule loader fails with error code 7, for
exercising error propagation. -/
def failTk : Toolkit Nat where
  readMoleculesIdx _ _ := .error 7
  viewFile _ := .ok ()
  viewSystem _ := .ok ()
  viewMapping _ _ _ := .ok ()
  gaff m := .ok (.gaffMol m)
  gaff2 m := .ok (.gaff2Mol m)
  ff14SB m := .ok (.ff14SBMol m)
  matchAtoms a b := .ok (.mapping a b)
  rmsdAlign a b mp := .ok (.aligned a b mp)
  mergeMols a b mp := .ok (.mergedMol a b mp)
  toSystem m := .ok (.molSystem m)
  addMols a b := .ok (.addMol a b)
  tip3p m wd box := .ok (.solvatedSys m wd box)
  protoFreeEnergy ts rt n := .ok (.protoFE ts rt n)
  protoMinimisation := .ok .protoMin
  protoEquilibration := .ok .protoEq
  savePerturbable _ _ := .ok ()
  readPerturbable a b c d := .ok (.pertSystem a b c d)
  gromacsRun s p := .ok (.gromacsSys s p)
  relative s p wd eng := .ok (.relative s p wd eng)

/-- The state after executing the whole notebook symbolically. -/
def finalState : NBState :=
  match notebook pureTk with
  | .ok s => s
  | .error e => e.elim

/-- The state after executing the first `n` cells symbolically. -/
def stateAfter (n : Nat) : NBState :=
  match runSteps ((stepsOf pureTk).take n) initState with
  | .ok s => s
  | .error e => e.elim

/-- The lambda-window count a leg's protocol was built with. -/
def legProtoNumLam : BVal → Option Nat
  | .relative _ (.protoFE _ _ n) _ _ => some n
  | _ => none

/-- The `work_dir` a leg was constructed with. -/
def legWorkDir : BVal → Option String
  | .relative _ _ wd _ => some wd
  | _ => none

/-- The system a leg was constructed from. -/
def legSys : BVal → Option BVal
  | .relative s _ _ _ => some s
  | _ => none

/-- `legProtoNumLam` with default 0. -/
def numLamOf (v : BVal) : Nat := (legProtoNumLam v).getD 0

/-- Modelled from the spec: `BSS.FreeEnergy.Relative` is not part of this
repository; it writes one per-window input directory under the leg's
`work_dir` for each lambda window of the protocol (directory names are
indexed by window here; positions of the interpolation values are not
modelled). -/
def lambdaDirs : BVal → List String
  | .relative _ (.protoFE _ _ n) wd _ =>
    (List.range n).map (fun i => wd ++ "/lambda_" ++ toString i)
  | _ => []

/-- Does a path begin with the 6 characters `input/`? -/
def startsWithInput (s : String) : Bool :=
  decide (s.data.take 6 = "input/".data)

/-! ### Dict lemmas -/

theorem dictKeys_append (d₁ d₂ : PyDict) :
    dictKeys (d₁ ++ d₂) = dictKeys d₁ ++ dictKeys d₂ := by
  simp [dictKeys]

theorem foldl_dictInsert_fresh (l : List (Nat × Nat)) :
    ∀ acc : PyDict, (dictVals l).Nodup →
      (∀ p ∈ l, p.2 ∉ dictKeys acc) →
      l.foldl (fun acc p => dictInsert acc p.2 p.1) acc = acc ++ l.map Prod.swap := by
  induction l with
  | nil => intro acc _ _; simp
  | cons hd tl ih =>
    intro acc hnd hfresh
    have hhd : hd.2 ∉ dictKeys acc := hfresh hd (List.mem_cons_self _ _)
    have hstep : dictInsert acc hd.2 hd.1 = acc ++ [(hd.2, hd.1)] := by
      simp [dictInsert, hhd]
    have hnd2 : hd.2 ∉ tl.map Prod.snd ∧ (tl.map Prod.snd).Nodup :=
      List.nodup_cons.mp hnd
    have hnd' : (dictVals tl).Nodup := hnd2.2
    have hne : ∀ p ∈ tl, p.2 ≠ hd.2 := by
      intro p hp heq
      exact hnd2.1 (heq ▸ List.mem_map_of_mem Prod.snd hp)
    have hfresh' : ∀ p ∈ tl, p.2 ∉ dictKeys (acc ++ [(hd.2, hd.1)]) := by
      intro p hp
      rw [dictKeys_append]
      intro hmem
      rcases List.mem_append.mp hmem with h | h
      · exact hfresh p (List.mem_cons_of_mem _ hp) h
      · simp [dictKeys] at h
        exact hne p hp h
    calc (hd :: tl).foldl (fun acc p => dictInsert acc p.2 p.1) acc
        = tl.foldl (fun acc p => dictInsert acc p.2 p.1) (dictInsert acc hd.2 hd.1) := rfl
      _ = (acc ++ [(hd.2, hd.1)]) ++ tl.map Prod.swap := by
          rw [hstep]; exact ih _ hnd' hfresh'
      _ = acc ++ (hd :: tl).map Prod.swap := by
          simp [Prod.swap]

theorem dictInvert_eq_map_swap (d : PyDict) (h : (dictVals d).Nodup) :
    dictInvert d = d.map Prod.swap := by
  have := foldl_dictInsert_fresh d [] h (by intro p _; simp [dictKeys])
  simpa [dictInvert] using this

theorem dictKeys_map_swap (d : PyDict) :
    dictKeys (d.map Prod.swap) = dictVals d := by
  simp [dictKeys, dictVals, List.map_map]

theorem dictVals_map_swap (d : PyDict) :
    dictVals (d.map Prod.swap) = dictKeys d := by
  simp [dictKeys, dictVals, List.map_map]

/-! ### List helper lemmas -/

theorem length_filterMap_of_isSome {α β : Type} (f : α → Option β) :
    ∀ l : List α, (∀ x ∈ l, (f x).isSome) → (l.filterMap f).length = l.length := by
  intro l
  induction l with
  | nil => intro _; rfl
  | cons a t ih =>
    intro h
    cases hfa : f a with
    | none =>
      have := h a (List.mem_cons_self _ _)
      rw [hfa] at this
      simp at this
    | some b =>
      rw [List.filterMap_cons_some hfa, List.length_cons, List.length_cons,
        ih (fun x hx => h x (List.mem_cons_of_mem _ hx))]

theorem filterMap_const_none {α β : Type} :
    ∀ l : List α, l.filterMap (fun _ => (none : Option β)) = [] := by
  intro l
  induction l with
  | nil => rfl
  | cons a t ih => rw [List.filterMap_cons_none rfl, ih]

theorem range_filterMap_getElem {α : Type} :
    ∀ l : List α, (List.range l.length).filterMap (fun i => l[i]?) = l := by
  intro l
  induction l with
  | nil => rfl
  | cons a t ih =>
    calc (List.range (a :: t).length).filterMap (fun i => (a :: t)[i]?)
        = ((0 : Nat) :: (List.range t.length).map Nat.succ).filterMap
            (fun i => (a :: t)[i]?) := by
          rw [List.length_cons, List.range_succ_eq_map]
      _ = a :: ((List.range t.length).map Nat.succ).filterMap
            (fun i => (a :: t)[i]?) := by
          rw [List.filterMap_cons_some (b := a) (by simp)]
      _ = a :: (List.range t.length).filterMap (fun i => t[i]?) := by
          rw [List.filterMap_map]
          congr 1
          apply List.filterMap_congr
          intro i _
          simp [Function.comp]
      _ = a :: t := by rw [ih]

theorem mapped_unmapped_perm (n : Nat) (ks : List Nat) (hnd : ks.Nodup)
    (hlt : ∀ k ∈ ks, k < n) :
    (ks ++ (List.range n).filter (fun i => !(decide (i ∈ ks)))).Perm
      (List.range n) := by
  apply List.perm_of_nodup_nodup_toFinset_eq
  · apply List.Nodup.append hnd ((List.nodup_range n).filter _)
    intro a ha hb
    have := (List.mem_filter.mp hb).2
    simp at this
    exact this ha
  · exact List.nodup_range n
  · ext x
    simp only [List.toFinset_append, Finset.mem_union, List.mem_toFinset,
      List.mem_filter, List.mem_range, Bool.not_eq_true', decide_eq_false_iff_not]
    constructor
    · rintro (h | h)
      · exact hlt x h
      · exact h.1
    · intro hx
      by_cases hmem : x ∈ ks
      · exact Or.inl hmem
      · exact Or.inr ⟨hx, hmem⟩

/-! ### Merge lemmas -/

theorem dictKeys_lt (A B : Molecule) (m : PyDict)
    (hidx : ∀ p ∈ m, p.1 < A.atoms.length ∧ p.2 < B.atoms.length) :
    ∀ k ∈ dictKeys m, k < A.atoms.length := by
  intro k hk
  obtain ⟨p, hp, rfl⟩ := List.mem_map.mp hk
  exact (hidx p hp).1

theorem dictVals_lt (A B : Molecule) (m : PyDict)
    (hidx : ∀ p ∈ m, p.1 < A.atoms.length ∧ p.2 < B.atoms.length) :
    ∀ v ∈ dictVals m, v < B.atoms.length := by
  intro v hv
  obtain ⟨p, hp, rfl⟩ := List.mem_map.mp hv
  exact (hidx p hp).2

theorem stateAatoms_merge (A B : Molecule) (m : PyDict)
    (hidx : ∀ p ∈ m, p.1 < A.atoms.length ∧ p.2 < B.atoms.length) :
    stateAatoms (merge A B m)
      = (dictKeys m ++ unmappedA A m).filterMap (fun i => A.atoms[i]?) := by
  unfold merge stateAatoms
  rw [List.filterMap_append, List.filterMap_append, List.filterMap_filterMap,
    List.filterMap_filterMap, List.filterMap_filterMap]
  have h1 : (m.filterMap fun p =>
      (match A.atoms[p.1]?, B.atoms[p.2]? with
        | some a, some b => some (⟨.real a, .real b⟩ : MergedAtom)
        | _, _ => none).bind
        (fun x => match x.stateA with | .real a => some a | .dummy => none))
      = m.filterMap (fun p => A.atoms[p.1]?) := by
    apply List.filterMap_congr
    intro p hp
    obtain ⟨ha, hb⟩ := hidx p hp
    rw [List.getElem?_eq_getElem ha, List.getElem?_eq_getElem hb]
    rfl
  have h2 : ((unmappedA A m).filterMap fun i =>
      ((A.atoms[i]?).map fun a => (⟨.real a, .dummy⟩ : MergedAtom)).bind
        (fun x => match x.stateA with | .real a => some a | .dummy => none))
      = (unmappedA A m).filterMap (fun i => A.atoms[i]?) := by
    apply List.filterMap_congr
    intro i _
    cases A.atoms[i]? <;> rfl
  have h3 : ((unmappedB B m).filterMap fun j =>
      ((B.atoms[j]?).map fun b => (⟨.dummy, .real b⟩ : MergedAtom)).bind
        (fun x => match x.stateA with | .real a => some a | .dummy => none))
      = [] := by
    rw [List.filterMap_congr (g := fun _ => none)
      (fun j _ => by cases B.atoms[j]? <;> rfl)]
    exact filterMap_const_none _
  have h4 : m.filterMap (fun p => A.atoms[p.1]?)
      = (dictKeys m).filterMap (fun i => A.atoms[i]?) := by
    unfold dictKeys
    rw [List.filterMap_map]
    exact List.filterMap_congr (fun p _ => rfl)
  rw [h1, h2, h3, h4, List.append_nil, ← List.filterMap_append]

theorem stateBatoms_merge (A B : Molecule) (m : PyDict)
    (hidx : ∀ p ∈ m, p.1 < A.atoms.length ∧ p.2 < B.atoms.length) :
    stateBatoms (merge A B m)
      = (dictVals m ++ unmappedB B m).filterMap (fun j => B.atoms[j]?) := by
  unfold merge stateBatoms
  rw [List.filterMap_append, List.filterMap_append, List.filterMap_filterMap,
    List.filterMap_filterMap, List.filterMap_filterMap]
  have h1 : (m.filterMap fun p =>
      (match A.atoms[p.1]?, B.atoms[p.2]? with
        | some a, some b => some (⟨.real a, .real b⟩ : MergedAtom)
        | _, _ => none).bind
        (fun x => match x.stateB with | .real b => some b | .dummy => none))
      = m.filterMap (fun p => B.atoms[p.2]?) := by
    apply List.filterMap_congr
    intro p hp
    obtain ⟨ha, hb⟩ := hidx p hp
    rw [List.getElem?_eq_getElem ha, List.getElem?_eq_getElem hb]
    rfl
  have h2 : ((unmappedA A m).filterMap fun i =>
      ((A.atoms[i]?).map fun a => (⟨.real a, .dummy⟩ : MergedAtom)).bind
        (fun x => match x.stateB with | .real b => some b | .dummy => none))
      = [] := by
    rw [List.filterMap_congr (g := fun _ => none)
      (fun i _ => by cases A.atoms[i]? <;> rfl)]
    exact filterMap_const_none _
  have h3 : ((unmappedB B m).filterMap fun j =>
      ((B.atoms[j]?).map fun b => (⟨.dummy, .real b⟩ : MergedAtom)).bind
        (fun x => match x.stateB with | .real b => some b | .dummy => none))
      = (unmappedB B m).filterMap (fun j => B.atoms[j]?) := by
    apply List.filterMap_congr
    intro j _
    cases B.atoms[j]? <;> rfl
  have h4 : m.filterMap (fun p => B.atoms[p.2]?)
      = (dictVals m).filterMap (fun j => B.atoms[j]?) := by
    unfold dictVals
    rw [List.filterMap_map]
    exact List.filterMap_congr (fun p _ => rfl)
  rw [h1, h2, h3, h4, List.append_nil, ← List.filterMap_append]

theorem stateAatoms_merge_perm (A B : Molecule) (m : PyDict)
    (hv : validMapping A B m) :
    (stateAatoms (merge A B m)).Perm A.atoms := by
  obtain ⟨hk, _, hidx, _⟩ := hv
  rw [stateAatoms_merge A B m hidx]
  have hperm := mapped_unmapped_perm A.atoms.length (dictKeys m) hk
    (dictKeys_lt A B m hidx)
  have := hperm.filterMap (fun i => A.atoms[i]?)
  rw [range_filterMap_getElem A.atoms] at this
  exact this

theorem stateBatoms_merge_perm (A B : Molecule) (m : PyDict)
    (hv : validMapping A B m) :
    (stateBatoms (merge A B m)).Perm B.atoms := by
  obtain ⟨_, hvn, hidx, _⟩ := hv
  rw [stateBatoms_merge A B m hidx]
  have hperm := mapped_unmapped_perm B.atoms.length (dictVals m) hvn
    (dictVals_lt A B m hidx)
  have := hperm.filterMap (fun j => B.atoms[j]?)
  rw [range_filterMap_getElem B.atoms] at this
  exact this

theorem merge_length (A B : Molecule) (m : PyDict) (hv : validMapping A B m) :
    (merge A B m).length = max A.atoms.length B.atoms.length := by
  obtain ⟨hk, hvn, hidx, hlen⟩ := hv
  have l1 : (m.filterMap fun p =>
      match A.atoms[p.1]?, B.atoms[p.2]? with
      | some a, some b => some (⟨.real a, .real b⟩ : MergedAtom)
      | _, _ => none).length = m.length := by
    apply length_filterMap_of_isSome
    intro p hp
    obtain ⟨ha, hb⟩ := hidx p hp
    rw [List.getElem?_eq_getElem ha, List.getElem?_eq_getElem hb]
    rfl
  have l2 : ((unmappedA A m).filterMap fun i =>
      (A.atoms[i]?).map fun a => (⟨.real a, .dummy⟩ : MergedAtom)).length
      = (unmappedA A m).length := by
    apply length_filterMap_of_isSome
    intro i hi
    have hlt : i < A.atoms.length :=
      List.mem_range.mp (List.mem_filter.mp hi).1
    rw [List.getElem?_eq_getElem hlt]
    rfl
  have l3 : ((unmappedB B m).filterMap fun j =>
      (B.atoms[j]?).map fun b => (⟨.dummy, .real b⟩ : MergedAtom)).length
      = (unmappedB B m).length := by
    apply length_filterMap_of_isSome
    intro j hj
    have hlt : j < B.atoms.length :=
      List.mem_range.mp (List.mem_filter.mp hj).1
    rw [List.getElem?_eq_getElem hlt]
    rfl
  have hA : (dictKeys m).length + (unmappedA A m).length = A.atoms.length := by
    have := (mapped_unmapped_perm A.atoms.length (dictKeys m) hk
      (dictKeys_lt A B m hidx)).length_eq
    simpa [unmappedA, List.length_append, List.length_range] using this
  have hB : (dictVals m).length + (unmappedB B m).length = B.atoms.length := by
    have := (mapped_unmapped_perm B.atoms.length (dictVals m) hvn
      (dictVals_lt A B m hidx)).length_eq
    simpa [unmappedB, List.length_append, List.length_range] using this
  have hkl : (dictKeys m).length = m.length := List.length_map _ _
  have hvl : (dictVals m).length = m.length := List.length_map _ _
  have hmerge : (merge A B m).length
      = m.length + (unmappedA A m).length + (unmappedB B m).length := by
    unfold merge
    rw [List.length_append, List.length_append, l1, l2, l3]
  rw [hkl] at hA
  rw [hvl] at hB
  rw [hmerge]
  omega

theorem merge_wf (A B : Molecule) (m : PyDict) :
    ∀ x ∈ merge A B m, wfMergedAtom A B x := by
  intro x hx
  unfold merge at hx
  rcases List.mem_append.mp hx with hx12 | hx3
  · rcases List.mem_append.mp hx12 with hx1 | hx2
    · obtain ⟨p, hp, heq⟩ := List.mem_filterMap.mp hx1
      cases ha : A.atoms[p.1]? with
      | none =>
        rw [ha] at heq
        cases hb : B.atoms[p.2]? <;> rw [hb] at heq <;> simp at heq
      | some a =>
        cases hb : B.atoms[p.2]? with
        | none => rw [ha, hb] at heq; simp at heq
        | some b =>
          rw [ha, hb] at heq
          have hx' : (⟨.real a, .real b⟩ : MergedAtom) = x := Option.some.inj heq
          subst hx'
          have hamem : a ∈ A.atoms := by
            rcases List.getElem?_eq_some_iff.mp ha with ⟨hlt, he⟩
            exact he ▸ List.getElem_mem hlt
          have hbmem : b ∈ B.atoms := by
            rcases List.getElem?_eq_some_iff.mp hb with ⟨hlt, he⟩
            exact he ▸ List.getElem_mem hlt
          refine ⟨Or.inl ⟨a, rfl, hamem⟩, Or.inl ⟨b, rfl, hbmem⟩, ?_⟩
          rintro ⟨h, -⟩
          exact AtomState.noConfusion h
    · obtain ⟨i, _, heq⟩ := List.mem_filterMap.mp hx2
      cases ha : A.atoms[i]? with
      | none => rw [ha] at heq; simp at heq
      | some a =>
        rw [ha] at heq
        have hx' : (⟨.real a, .dummy⟩ : MergedAtom) = x := Option.some.inj heq
        subst hx'
        have hamem : a ∈ A.atoms := by
          rcases List.getElem?_eq_some_iff.mp ha with ⟨hlt, he⟩
          exact he ▸ List.getElem_mem hlt
        refine ⟨Or.inl ⟨a, rfl, hamem⟩, Or.inr rfl, ?_⟩
        rintro ⟨h, -⟩
        exact AtomState.noConfusion h
  · obtain ⟨j, _, heq⟩ := List.mem_filterMap.mp hx3
    cases hb : B.atoms[j]? with
    | none => rw [hb] at heq; simp at heq
    | some b =>
      rw [hb] at heq
      have hx' : (⟨.dummy, .real b⟩ : MergedAtom) = x := Option.some.inj heq
      subst hx'
      have hbmem : b ∈ B.atoms := by
        rcases List.getElem?_eq_some_iff.mp hb with ⟨hlt, he⟩
        exact he ▸ List.getElem_mem hlt
      refine ⟨Or.inr rfl, Or.inl ⟨b, rfl, hbmem⟩, ?_⟩
      rintro ⟨-, h⟩
      exact AtomState.noConfusion h

theorem zipWith_mk_states (l : List MergedAtom) :
    List.zipWith MergedAtom.mk (l.map MergedAtom.stateA)
      (l.map MergedAtom.stateB) = l := by
  induction l with
  | nil => rfl
  | cons x t ih => simp [ih]

theorem readPerturbable_savePerturbable (s : PertSystem) :
    readPerturbableSystem (savePerturbableSystem s).1
      (savePerturbableSystem s).2 = some s := by
  unfold savePerturbableSystem readPerturbableSystem
  rw [if_pos]
  · rw [zipWith_mk_states]
  · exact ⟨by simp, rfl⟩

theorem runSteps_append {ε : Type} (l₁ l₂ : List (NBState → Except ε NBState))
    (s : NBState) :
    runSteps (l₁ ++ l₂) s
      = match runSteps l₁ s with
        | .ok s' => runSteps l₂ s'
        | .error e => .error e := by
  induction l₁ generalizing s with
  | nil => rfl
  | cons f t ih =>
    have h1 : runSteps ((f :: t) ++ l₂) s
        = match f s with
          | .ok s' => runSteps (t ++ l₂) s'
          | .error e => .error e := rfl
    have h2 : runSteps (f :: t) s
        = match f s with
          | .ok s' => runSteps t s'
          | .error e => .error e := rfl
    rw [h1, h2]
    cases f s with
    | ok s' => exact ih s'
    | error e => rfl

end AlchemSetup

namespace AlchemSetup

/-- Claim C1: for every atom mapping `M` produced by `matchAtoms` (keys
unique, values unique), inverting it with `{v:k for k,v in M.items()}` and
inverting the result the same way yields `M` itself:
`invert (invert M) = M`. -/
theorem invert_invert_eq (m : PyDict) (h : isAtomMapping m) :
    dictInvert (dictInvert m) = m := by
  obtain ⟨hk, hv⟩ := h
  rw [dictInvert_eq_map_swap m hv]
  rw [dictInvert_eq_map_swap (m.map Prod.swap) (by rw [dictVals_map_swap]; exact hk)]
  simp [List.map_map]

/-- Witness for C1 at the concrete mapping `{0: 2, 1: 0, 3: 1}`. -/
theorem invert_invert_eq_witness :
    isAtomMapping [(0, 2), (1, 0), (3, 1)] ∧
      dictInvert (dictInvert [(0, 2), (1, 0), (3, 1)]) = [(0, 2), (1, 0), (3, 1)] :=
  ⟨by decide, invert_invert_eq [(0, 2), (1, 0), (3, 1)] (by decide)⟩

/-- Claim C2: inverting an atom mapping (keys unique, values unique)
exchanges its domain and codomain: the keys of the inverse are the values
of the original, the values of the inverse are the keys of the original,
the entry count is preserved, and the inverse is again an atom mapping. -/
theorem invert_exchanges_domain_codomain (m : PyDict) (h : isAtomMapping m) :
    dictKeys (dictInvert m) = dictVals m ∧
      dictVals (dictInvert m) = dictKeys m ∧
      (dictInvert m).length = m.length ∧
      isAtomMapping (dictInvert m) := by
  obtain ⟨hk, hv⟩ := h
  rw [dictInvert_eq_map_swap m hv, dictKeys_map_swap, dictVals_map_swap]
  refine ⟨rfl, rfl, by simp, ?_⟩
  constructor
  · rw [dictKeys_map_swap]; exact hv
  · rw [dictVals_map_swap]; exact hk

/-- Witness for C2 at the concrete mapping `{0: 2, 1: 0, 3: 1}`. -/
theorem invert_exchanges_domain_codomain_witness :
    isAtomMapping [(0, 2), (1, 0), (3, 1)] ∧
      (dictKeys (dictInvert [(0, 2), (1, 0), (3, 1)]) = dictVals [(0, 2), (1, 0), (3, 1)] ∧
        dictVals (dictInvert [(0, 2), (1, 0), (3, 1)]) = dictKeys [(0, 2), (1, 0), (3, 1)] ∧
        (dictInvert [(0, 2), (1, 0), (3, 1)]).length = ([(0, 2), (1, 0), (3, 1)] : PyDict).length ∧
        isAtomMapping (dictInvert [(0, 2), (1, 0), (3, 1)])) :=
  ⟨by decide, invert_exchanges_domain_codomain [(0, 2), (1, 0), (3, 1)] (by decide)⟩

/-- Claim C3: for every pair of molecules merged under a valid atom
mapping, the atom count of the merged (alchemical) molecule equals the
larger of the two input molecules' atom counts, and every atom of the
merged molecule has a well-defined state-A and state-B property record
(atoms absent in one state being dummy placeholders, and no atom being a
dummy in both states). -/
theorem merge_atom_count_and_state_records (A B : Molecule) (m : PyDict)
    (hv : validMapping A B m) :
    (merge A B m).length = max A.atoms.length B.atoms.length ∧
      ∀ x ∈ merge A B m, wfMergedAtom A B x :=
  ⟨merge_length A B m hv, merge_wf A B m⟩

/-- Witness for C3: merging a three-atom molecule with a two-atom molecule
under the mapping `{0: 0, 1: 1}`. -/
theorem merge_atom_count_and_state_records_witness :
    validMapping ⟨[⟨"C"⟩, ⟨"C"⟩, ⟨"H"⟩]⟩ ⟨[⟨"C"⟩, ⟨"O"⟩]⟩ [(0, 0), (1, 1)] ∧
      ((merge ⟨[⟨"C"⟩, ⟨"C"⟩, ⟨"H"⟩]⟩ ⟨[⟨"C"⟩, ⟨"O"⟩]⟩ [(0, 0), (1, 1)]).length
          = max (Molecule.mk [⟨"C"⟩, ⟨"C"⟩, ⟨"H"⟩]).atoms.length
              (Molecule.mk [⟨"C"⟩, ⟨"O"⟩]).atoms.length ∧
        ∀ x ∈ merge ⟨[⟨"C"⟩, ⟨"C"⟩, ⟨"H"⟩]⟩ ⟨[⟨"C"⟩, ⟨"O"⟩]⟩ [(0, 0), (1, 1)],
          wfMergedAtom ⟨[⟨"C"⟩, ⟨"C"⟩, ⟨"H"⟩]⟩ ⟨[⟨"C"⟩, ⟨"O"⟩]⟩ x) :=
  ⟨by decide,
    merge_atom_count_and_state_records ⟨[⟨"C"⟩, ⟨"C"⟩, ⟨"H"⟩]⟩ ⟨[⟨"C"⟩, ⟨"O"⟩]⟩
      [(0, 0), (1, 1)] (by decide)⟩

/-- Claim C4: saving a merged, solvated perturbable system with
`savePerturbableSystem` and reading the end-state files back with
`readPerturbableSystem` succeeds and reproduces the atom counts and the
elemental identities of the two original input molecules. -/
theorem save_read_roundtrip (A B : Molecule) (m : PyDict) (w : List Atom)
    (hv : validMapping A B m) :
    ∃ s : PertSystem,
      readPerturbableSystem (savePerturbableSystem ⟨merge A B m, w⟩).1
          (savePerturbableSystem ⟨merge A B m, w⟩).2 = some s ∧
        (stateAatoms s.pert).length = A.atoms.length ∧
        (stateBatoms s.pert).length = B.atoms.length ∧
        ((stateAatoms s.pert).map Atom.element).Perm
          (A.atoms.map Atom.element) ∧
        ((stateBatoms s.pert).map Atom.element).Perm
          (B.atoms.map Atom.element) := by
  refine ⟨⟨merge A B m, w⟩, readPerturbable_savePerturbable _, ?_, ?_, ?_, ?_⟩
  · exact (stateAatoms_merge_perm A B m hv).length_eq
  · exact (stateBatoms_merge_perm A B m hv).length_eq
  · exact (stateAatoms_merge_perm A B m hv).map _
  · exact (stateBatoms_merge_perm A B m hv).map _

/-- Witness for C4: the save/read round-trip for the three-atom /
two-atom merge of the C3 witness, solvated with one water oxygen. -/
theorem save_read_roundtrip_witness :
    validMapping ⟨[⟨"C"⟩, ⟨"C"⟩, ⟨"H"⟩]⟩ ⟨[⟨"C"⟩, ⟨"O"⟩]⟩ [(0, 0), (1, 1)] ∧
      (∃ s : PertSystem,
        readPerturbableSystem
            (savePerturbableSystem
              ⟨merge ⟨[⟨"C"⟩, ⟨"C"⟩, ⟨"H"⟩]⟩ ⟨[⟨"C"⟩, ⟨"O"⟩]⟩ [(0, 0), (1, 1)],
                [⟨"O"⟩]⟩).1
            (savePerturbableSystem
              ⟨merge ⟨[⟨"C"⟩, ⟨"C"⟩, ⟨"H"⟩]⟩ ⟨[⟨"C"⟩, ⟨"O"⟩]⟩ [(0, 0), (1, 1)],
                [⟨"O"⟩]⟩).2 = some s ∧
          (stateAatoms s.pert).length
              = (Molecule.mk [⟨"C"⟩, ⟨"C"⟩, ⟨"H"⟩]).atoms.length ∧
          (stateBatoms s.pert).length
              = (Molecule.mk [⟨"C"⟩, ⟨"O"⟩]).atoms.length ∧
          ((stateAatoms s.pert).map Atom.element).Perm
            ((Molecule.mk [⟨"C"⟩, ⟨"C"⟩, ⟨"H"⟩]).atoms.map Atom.element) ∧
          ((stateBatoms s.pert).map Atom.element).Perm
            ((Molecule.mk [⟨"C"⟩, ⟨"O"⟩]).atoms.map Atom.element)) :=
  ⟨by decide,
    save_read_roundtrip ⟨[⟨"C"⟩, ⟨"C"⟩, ⟨"H"⟩]⟩ ⟨[⟨"C"⟩, ⟨"O"⟩]⟩
      [(0, 0), (1, 1)] [⟨"O"⟩] (by decide)⟩

/-- Claim C5: for every free-energy leg constructed from a system and a
protocol, the number of per-lambda-window input directories generated
under the leg's work_dir equals the window count `num_lam` supplied to the
protocol builder; in particular this holds for every leg the notebook
constructs. -/
theorem leg_window_directory_count :
    (∀ sys : BVal, ∀ wd eng : String, ∀ ts : Option Nat, ∀ rt n : Nat,
      (lambdaDirs (BVal.relative sys (BVal.protoFE ts rt n) wd eng)).length = n) ∧
      (finalState.legs.all fun leg =>
        (lambdaDirs leg).length == numLamOf leg) = true := by
  constructor
  · intro sys wd eng ts rt n
    simp [lambdaDirs]
  · rfl

/-- Claim C6: the workflow installs no error handling: if the cells before
step `n` succeed and the toolkit call in step `n` fails with error `e`,
the whole notebook run fails with exactly that error — the error is
propagated unchanged and no later cell executes. -/
theorem toolkit_error_propagates {ε : Type} (tk : Toolkit ε) (n : Nat)
    (s' : NBState) (e : ε)
    (hpre : runSteps ((stepsOf tk).take n) initState = Except.ok s')
    (hstep : ∃ f, (stepsOf tk)[n]? = some f ∧ f s' = Except.error e) :
    notebook tk = Except.error e := by
  obtain ⟨f, hf, herr⟩ := hstep
  obtain ⟨hn, heq⟩ := List.getElem?_eq_some_iff.mp hf
  have hdrop : (stepsOf tk).drop n = f :: (stepsOf tk).drop (n + 1) := by
    rw [List.drop_eq_getElem_cons hn, heq]
  have hsplit : stepsOf tk
      = (stepsOf tk).take n ++ (f :: (stepsOf tk).drop (n + 1)) := by
    rw [← hdrop, List.take_append_drop]
  unfold notebook
  rw [hsplit, runSteps_append, hpre]
  show runSteps (f :: (stepsOf tk).drop (n + 1)) s' = Except.error e
  unfold runSteps
  rw [herr]

/-- Witness for C6: a toolkit whose molecule loader fails with error code 7
makes the very first cell fail, and the whole notebook run returns exactly
`error 7`. -/
theorem toolkit_error_propagates_witness :
    (runSteps ((stepsOf failTk).take 0) initState = Except.ok initState ∧
      (∃ f, (stepsOf failTk)[0]? = some f ∧
        f initState = Except.error 7)) ∧
      notebook failTk = Except.error 7 :=
  ⟨⟨rfl, ⟨(stepsOf failTk).headD (fun s => Except.ok s), rfl, rfl⟩⟩,
    toolkit_error_propagates failTk 0 initState 7 rfl
      ⟨(stepsOf failTk).headD (fun s => Except.ok s), rfl, rfl⟩⟩

/-- Claim C7: every structure file (PDB or MOL2) the workflow reads — the
five paths passed to the molecule loader `BSS.IO.readMolecules` and the two
passed to the file viewer — is a fixed relative path beginning with
`input/`. -/
theorem structure_files_read_from_input_dir :
    finalState.molPaths = ["input/ethane.pdb", "input/methanol.pdb",
      "input/protein.pdb", "input/benzene.mol2", "input/o-xylene.mol2"] ∧
      finalState.viewPaths = ["input/ethane.pdb", "input/methanol.pdb"] ∧
      ((finalState.molPaths ++ finalState.viewPaths).all startsWithInput)
        = true :=
  ⟨rfl, rfl, rfl⟩

/-- Claim C8: the 12-window exercise cell assigns its protocol to the
misspelled name `rotocol`, so after that cell `protocol` is still the
9-window protocol; every leg the notebook constructs (in particular the
methanol-to-ethane free and vacuum legs and the GROMACS free leg, legs 2,
3 and 4 of the trace) is configured with a 9-window protocol, and the
12-window protocol is never passed to any leg generator. -/
theorem rotocol_typo_legs_use_nine_windows :
    envGet (stateAfter 15).env "protocol" = BVal.protoFE (some 2) 4 9 ∧
      envGet (stateAfter 15).env "rotocol" = BVal.protoFE (some 2) 4 12 ∧
      finalState.legs.map legProtoNumLam
        = [some 9, some 9, some 9, some 9, some 9, some 9, some 9, some 9,
            some 9] :=
  ⟨rfl, rfl, rfl⟩

/-- Claim C9: the methanol-to-ethane free leg and vacuum leg are
constructed with the identical work_dir `"methanol_ethane"`, so both legs'
input files go to the same output directory. -/
theorem methanol_legs_share_work_dir :
    envGet finalState.env "fep_methanol_free" = finalState.legs.getD 2 .unbound ∧
      envGet finalState.env "fep_methanol_vac" = finalState.legs.getD 3 .unbound ∧
      legWorkDir (finalState.legs.getD 2 .unbound) = some "methanol_ethane" ∧
      legWorkDir (finalState.legs.getD 3 .unbound) = some "methanol_ethane" ∧
      legWorkDir (finalState.legs.getD 2 .unbound)
        = legWorkDir (finalState.legs.getD 3 .unbound) :=
  ⟨rfl, rfl, rfl, rfl, rfl⟩

/-- Claim C10: in the final minimisation/equilibration exercise the process
chain is built from the binding `solvated`, whose value is still the
ethane-methanol perturbable system read back by `readPerturbableSystem`,
so the `fep_bound` leg created at the end of the notebook is built from the
equilibrated ethane-methanol system — not from `complx` or
`complex_sol`. -/
theorem final_bound_leg_built_from_solvated :
    envGet finalState.env "solvated"
        = BVal.pertSystem "pert0.prm7" "pert0.rst7" "pert1.prm7" "pert1.rst7" ∧
      envGet finalState.env "fep_bound"
        = BVal.relative
            (BVal.gromacsSys
              (BVal.gromacsSys
                (BVal.pertSystem "pert0.prm7" "pert0.rst7" "pert1.prm7"
                  "pert1.rst7")
                BVal.protoMin)
              BVal.protoEq)
            (BVal.protoFE none 4 9) "exercise_5_3/bound" "somd" ∧
      legSys (envGet finalState.env "fep_bound")
          ≠ some (envGet finalState.env "complex_sol") ∧
      legSys (envGet finalState.env "fep_bound")
          ≠ some (envGet finalState.env "complx") :=
  ⟨rfl, rfl, by decide, by decide⟩

end AlchemSetup
